import Mathlib

/-!
Verification development for the CMS/PKCS#7 `SignerInfo` core
(RFC 5652 § 5.3), as implemented in `pkcs7/src/signer_info.rs`.

The repository file declares the data shapes (`SignerIdentifier`,
`IssuerAndSerialNumber`, `SignerInfo`, `SignerInfos`) together with their
ASN.1 tagging attributes, and implements `ValueOrd` for `SignerInfo`.
The generic DER codec machinery (tag/length/value framing, SEQUENCE and
CHOICE derive logic, the `SetOfVec` canonical set container) lives in the
repository's `der` crate, which is not part of the sources here; those
parts are modelled from the specification, and each such definition is
marked `Modelled from the spec:` in its doc comment.

Bytes are modelled as natural numbers; a byte stream is a `List Nat`.
-/

/-! ## DER primitive layer -/

/-- Modelled from the spec: the external codec library's DER definite-length
encoding (missing `der` crate primitive). A length below 128 is one octet;
otherwise a prefix octet `0x80 + k` announces `k` big-endian base-256
digit octets. -/
def encLen (n : Nat) : List Nat :=
  if n < 128 then [n]
  else
    let ds := (Nat.digits 256 n).reverse
    (128 + ds.length) :: ds

/-- Modelled from the spec: the external codec library's DER definite-length
decoding (missing `der` crate primitive). Returns the decoded length and
the remaining stream, or `none` on a malformed or truncated length. -/
def decLen : List Nat → Option (Nat × List Nat)
  | [] => none
  | b :: rest =>
    if b < 128 then some (b, rest)
    else
      let k := b - 128
      if k = 0 then none
      else if k ≤ rest.length then
        some ((rest.take k).foldl (fun a d => 256 * a + d) 0, rest.drop k)
      else none

/-- Modelled from the spec: the error taxonomy of § 7 (the `der` crate's
error kinds are not part of the sources). -/
inductive ErrorKind where
  | tagMismatch
  | lengthMismatch
  | missingField
  | emptyOptionalCollection
  | trailingData
  deriving DecidableEq

/-- ASN.1 INTEGER tag octet. -/
def tagInteger : Nat := 0x02

/-- ASN.1 OCTET STRING tag octet. -/
def tagOctetString : Nat := 0x04

/-- ASN.1 SEQUENCE (constructed) tag octet. -/
def tagSequence : Nat := 0x30

/-- ASN.1 SET (constructed) tag octet. -/
def tagSet : Nat := 0x31

/-- Context-specific constructed tag number 0. -/
def tagContext0 : Nat := 0xA0

/-- Context-specific constructed tag number 1. -/
def tagContext1 : Nat := 0xA1

/-- Modelled from the spec: the external codec library's TLV emitter
(missing `der` crate primitive): tag octet, then DER length, then content. -/
def encTLV (tag : Nat) (content : List Nat) : List Nat :=
  tag :: encLen content.length ++ content

/-- Modelled from the spec: the external codec library's TLV reader
(missing `der` crate primitive). Expects `tag` next on the stream and
returns the framed content together with the unread remainder.
An empty stream is a `missingField`, a wrong tag a `tagMismatch`, and a
malformed or truncated length a `lengthMismatch`. -/
def decodeTLV (tag : Nat) : List Nat → Except ErrorKind (List Nat × List Nat)
  | [] => .error .missingField
  | t :: rest =>
    if t = tag then
      match decLen rest with
      | none => .error .lengthMismatch
      | some (n, r) =>
        if n ≤ r.length then .ok (r.take n, r.drop n) else .error .lengthMismatch
    else .error .tagMismatch

/-! ### Round-trip facts for the primitive layer -/

theorem foldl_base256 (l : List Nat) (a : Nat) :
    l.foldl (fun a d => 256 * a + d) a = a * 256 ^ l.length + Nat.ofDigits 256 l.reverse := by
  induction l generalizing a with
  | nil => simp [Nat.ofDigits]
  | cons d t ih =>
    simp only [List.foldl_cons, ih, List.reverse_cons, List.length_cons,
      Nat.ofDigits_append, Nat.ofDigits_cons, Nat.ofDigits_nil, List.length_reverse]
    ring

theorem decLen_encLen (n : Nat) (rest : List Nat) :
    decLen (encLen n ++ rest) = some (n, rest) := by
  by_cases h : n < 128
  · simp [encLen, decLen, h]
  · have hn : n ≠ 0 := by omega
    have hds : (Nat.digits 256 n) ≠ [] := Nat.digits_ne_nil_iff_ne_zero.mpr hn
    simp only [encLen, if_neg h, List.cons_append, decLen]
    have h128 : ¬ (128 + (Nat.digits 256 n).reverse.length < 128) := by omega
    have hlen0 : ¬ (128 + (Nat.digits 256 n).reverse.length - 128 = 0) := by
      have hpos : 0 < (Nat.digits 256 n).length := List.length_pos.mpr hds
      simp only [List.length_reverse]
      omega
    have hk : 128 + (Nat.digits 256 n).reverse.length - 128
        = (Nat.digits 256 n).reverse.length := by omega
    simp only [if_neg h128, hk, if_neg hlen0]
    have hle : (Nat.digits 256 n).reverse.length
        ≤ ((Nat.digits 256 n).reverse ++ rest).length := by
      simp [List.length_append]
    rw [if_pos hle, List.take_left, List.drop_left]
    rw [foldl_base256, List.reverse_reverse, Nat.ofDigits_digits]
    simp [hds]

theorem decodeTLV_encTLV (tag : Nat) (c rest : List Nat) :
    decodeTLV tag (encTLV tag c ++ rest) = .ok (c, rest) := by
  have hle : c.length ≤ (c ++ rest).length := by simp [List.length_append]
  simp [encTLV, List.cons_append, List.append_assoc, decodeTLV, decLen_encLen,
    hle, List.take_left, List.drop_left]

theorem encLen_ne_nil (n : Nat) : encLen n ≠ [] := by
  by_cases h : n < 128 <;> simp [encLen, h]

theorem encTLV_length_ge_two (tag : Nat) (c : List Nat) : 2 ≤ (encTLV tag c).length := by
  have h := encLen_ne_nil c.length
  have : 1 ≤ (encLen c.length).length := List.length_pos.mpr h
  simp only [encTLV, List.length_cons, List.length_append]
  omega

theorem encTLV_head (tag : Nat) (c rest : List Nat) :
    (encTLV tag c ++ rest).head? = some tag := by
  simp [encTLV]

/-! ## External opaque ASN.1 types

The spec (§ 1, § 6) treats `Name`, `SerialNumber`, `Attribute`,
`AlgorithmIdentifier`, `SubjectKeyIdentifier`, the CMS version integer and
the signature OCTET STRING as independently specified opaque
encodable/decodable values. Each is modelled by the content octets of its
TLV encoding, framed under the type's fixed outer tag. -/

/-- Modelled from the spec: the CMS version, a small enumerated INTEGER
(the `cms_version` module is not part of the sources); held as the content
octets of its INTEGER encoding, not validated internally. -/
structure CmsVersion where
  content : List Nat
  deriving DecidableEq

/-- Modelled from the spec: opaque X.501 distinguished name, an externally
specified SEQUENCE-framed value. -/
structure Name where
  content : List Nat
  deriving DecidableEq

/-- Modelled from the spec: opaque certificate serial number, an externally
specified INTEGER-framed value. -/
structure SerialNumber where
  content : List Nat
  deriving DecidableEq

/-- Modelled from the spec: opaque algorithm identifier, an externally
specified SEQUENCE-framed value (used for both digest and signature
algorithms). -/
structure AlgorithmIdentifierRef where
  content : List Nat
  deriving DecidableEq

/-- Modelled from the spec: opaque attribute (OID + values), an externally
specified SEQUENCE-framed value. -/
structure Attribute where
  content : List Nat
  deriving DecidableEq

/-- Modelled from the spec: opaque subject key identifier extension value,
an externally specified OCTET STRING-framed value. -/
structure SubjectKeyIdentifier where
  content : List Nat
  deriving DecidableEq

/-- Modelled from the spec: borrowed OCTET STRING (the raw signature
value, never interpreted by this core). -/
structure OctetStringRef where
  content : List Nat
  deriving DecidableEq

def CmsVersion.toDer (x : CmsVersion) : List Nat := encTLV tagInteger x.content

def Name.toDer (x : Name) : List Nat := encTLV tagSequence x.content

def SerialNumber.toDer (x : SerialNumber) : List Nat := encTLV tagInteger x.content

def AlgorithmIdentifierRef.toDer (x : AlgorithmIdentifierRef) : List Nat :=
  encTLV tagSequence x.content

def Attribute.toDer (x : Attribute) : List Nat := encTLV tagSequence x.content

def SubjectKeyIdentifier.toDer (x : SubjectKeyIdentifier) : List Nat :=
  encTLV tagOctetString x.content

def OctetStringRef.toDer (x : OctetStringRef) : List Nat :=
  encTLV tagOctetString x.content

/-- Modelled from the spec: stream decoder for an opaque CMS version. -/
def decodeCmsVersion (input : List Nat) : Except ErrorKind (CmsVersion × List Nat) :=
  match decodeTLV tagInteger input with
  | .error e => .error e
  | .ok (c, rest) => .ok (⟨c⟩, rest)

/-- Modelled from the spec: stream decoder for an opaque name. -/
def decodeName (input : List Nat) : Except ErrorKind (Name × List Nat) :=
  match decodeTLV tagSequence input with
  | .error e => .error e
  | .ok (c, rest) => .ok (⟨c⟩, rest)

/-- Modelled from the spec: stream decoder for an opaque serial number. -/
def decodeSerialNumber (input : List Nat) : Except ErrorKind (SerialNumber × List Nat) :=
  match decodeTLV tagInteger input with
  | .error e => .error e
  | .ok (c, rest) => .ok (⟨c⟩, rest)

/-- Modelled from the spec: stream decoder for an opaque algorithm identifier. -/
def decodeAlgorithmIdentifierRef (input : List Nat) :
    Except ErrorKind (AlgorithmIdentifierRef × List Nat) :=
  match decodeTLV tagSequence input with
  | .error e => .error e
  | .ok (c, rest) => .ok (⟨c⟩, rest)

/-- Modelled from the spec: stream decoder for an opaque subject key identifier. -/
def decodeSubjectKeyIdentifier (input : List Nat) :
    Except ErrorKind (SubjectKeyIdentifier × List Nat) :=
  match decodeTLV tagOctetString input with
  | .error e => .error e
  | .ok (c, rest) => .ok (⟨c⟩, rest)

/-- Modelled from the spec: stream decoder for an opaque octet string. -/
def decodeOctetStringRef (input : List Nat) :
    Except ErrorKind (OctetStringRef × List Nat) :=
  match decodeTLV tagOctetString input with
  | .error e => .error e
  | .ok (c, rest) => .ok (⟨c⟩, rest)

/-! ## The data shapes declared in `signer_info.rs` -/

/-- The `IssuerAndSerialNumber` struct of `signer_info.rs` (derived
`Sequence`): issuer distinguished name plus certificate serial number. -/
structure IssuerAndSerialNumber where
  name : Name
  serial_number : SerialNumber
  deriving DecidableEq

/-- The `SignerIdentifier` CHOICE of `signer_info.rs` (derived `Choice`):
either an untagged `IssuerAndSerialNumber` sequence or a
`SubjectKeyIdentifier` under context-specific tag 0. -/
inductive SignerIdentifier where
  | issuerAndSerialNumber (v : IssuerAndSerialNumber)
  | subjectKeyIdentifier (v : SubjectKeyIdentifier)
  deriving DecidableEq

/-- Modelled from the spec: the `SetOfVec` canonical set collection of the
`der` crate (not part of the sources). Elements are stored as an ordered
sequence — insertion order is preserved for iteration — while the encoder
alone is responsible for canonical ordering (§ 3, § 4.3). -/
structure SetOfVec (α : Type) where
  elems : List α
  deriving DecidableEq

/-- The `SignedAttributes` alias of `signer_info.rs`:
SET SIZE (1..MAX) OF Attribute. -/
abbrev SignedAttributes := SetOfVec Attribute

/-- The `UnsignedAttributes` alias of `signer_info.rs`:
SET SIZE (1..MAX) OF Attribute. -/
abbrev UnsignedAttributes := SetOfVec Attribute

/-- The `SignerInfo` struct of `signer_info.rs` (derived `Sequence`), with
its two IMPLICIT-tagged optional attribute sets. -/
structure SignerInfo where
  version : CmsVersion
  sid : SignerIdentifier
  digest_algorithm : AlgorithmIdentifierRef
  signed_attributes : Option SignedAttributes
  signature_algorithm : AlgorithmIdentifierRef
  signature : OctetStringRef
  unsigned_attributes : Option UnsignedAttributes
  deriving DecidableEq

/-- The `SignerInfos` alias of `signer_info.rs`: SET OF SignerInfo. -/
abbrev SignerInfos := SetOfVec SignerInfo

/-- The `ValueOrd` implementation for `SignerInfo` in `signer_info.rs`:
it unconditionally returns `Ok(Ordering::Equal)`. -/
def SignerInfo.value_cmp (_self _other : SignerInfo) : Except ErrorKind Ordering :=
  .ok Ordering.eq

/-! ## Encoding (modelled from the spec, § 4.1 – § 4.3, § 6) -/

/-- Modelled from the spec (§ 4.3): the canonical ordering pass of the set
container's encoder — a stable sort of the elements' own encodings in
ascending lexicographic (unsigned byte) order. -/
def canonicalOrder (encs : List (List Nat)) : List (List Nat) :=
  List.insertionSort (fun a b : List Nat => a ≤ b) encs

/-- Modelled from the spec (§ 4.3): the content octets of an encoded
SET OF — the canonically ordered element encodings, concatenated. -/
def setContent (encs : List (List Nat)) : List Nat :=
  (canonicalOrder encs).flatten

def IssuerAndSerialNumber.toDer (v : IssuerAndSerialNumber) : List Nat :=
  encTLV tagSequence (v.name.toDer ++ v.serial_number.toDer)

/-- Modelled from the spec (§ 4.1): CHOICE encoding — the issuer/serial
variant is an untagged nested SEQUENCE, the subject-key-identifier variant
wraps the inner value's complete encoding in explicit context tag 0. -/
def SignerIdentifier.toDer : SignerIdentifier → List Nat
  | .issuerAndSerialNumber v => v.toDer
  | .subjectKeyIdentifier v => encTLV tagContext0 v.toDer

/-- Modelled from the spec (§ 3, § 4.2): an optional IMPLICIT-tagged
attribute set encodes to nothing when absent, and to the canonically
ordered set content under the given context tag when present. -/
def optAttrsToDer (tag : Nat) : Option (SetOfVec Attribute) → List Nat
  | none => []
  | some s => encTLV tag (setContent (s.elems.map Attribute.toDer))

/-- Modelled from the spec (§ 4.2, § 6): `SignerInfo` encodes as a SEQUENCE
of its fields in declaration order. -/
def SignerInfo.toDer (si : SignerInfo) : List Nat :=
  encTLV tagSequence
    (si.version.toDer ++ si.sid.toDer ++ si.digest_algorithm.toDer
      ++ optAttrsToDer tagContext0 si.signed_attributes
      ++ si.signature_algorithm.toDer ++ si.signature.toDer
      ++ optAttrsToDer tagContext1 si.unsigned_attributes)

/-- Modelled from the spec (§ 4.3, § 6): `SignerInfos` encodes as a SET
whose content is the canonically ordered element encodings. -/
def SignerInfos.toDer (s : SignerInfos) : List Nat :=
  encTLV tagSet (setContent (s.elems.map SignerInfo.toDer))

/-! ## Decoding (modelled from the spec, § 4.1 – § 4.3, § 7) -/

/-- Modelled from the spec (§ 4.1): nested sequence decoder for
`IssuerAndSerialNumber` — name then serial number, in that fixed order,
with no content left over. -/
def decodeIssuerAndSerialNumber (input : List Nat) :
    Except ErrorKind (IssuerAndSerialNumber × List Nat) :=
  match decodeTLV tagSequence input with
  | .error e => .error e
  | .ok (c, rest) =>
    match decodeName c with
    | .error e => .error e
    | .ok (n, c1) =>
      match decodeSerialNumber c1 with
      | .error e => .error e
      | .ok (sn, c2) =>
        if c2 = [] then .ok (⟨n, sn⟩, rest) else .error .trailingData

/-- Modelled from the spec (§ 4.1): CHOICE dispatch on the peeked outer
tag — SEQUENCE selects the issuer/serial variant, context tag 0 selects
the subject-key-identifier variant, anything else is a `tagMismatch`. -/
def decodeSignerIdentifier (input : List Nat) :
    Except ErrorKind (SignerIdentifier × List Nat) :=
  match input.head? with
  | none => .error .missingField
  | some t =>
    if t = tagSequence then
      match decodeIssuerAndSerialNumber input with
      | .error e => .error e
      | .ok (v, rest) => .ok (.issuerAndSerialNumber v, rest)
    else if t = tagContext0 then
      match decodeTLV tagContext0 input with
      | .error e => .error e
      | .ok (c, rest) =>
        match decodeSubjectKeyIdentifier c with
        | .error e => .error e
        | .ok (v, c1) =>
          if c1 = [] then .ok (.subjectKeyIdentifier v, rest) else .error .trailingData
    else .error .tagMismatch

/-- Modelled from the spec (§ 4.3): element-by-element decoder for a SET OF
content, in stream order; `fuel` bounds the recursion and any fuel at least
the stream length is sufficient. -/
def decodeAttrList (fuel : Nat) (input : List Nat) : Except ErrorKind (List Attribute) :=
  if input = [] then .ok []
  else
    match fuel with
    | 0 => .error .lengthMismatch
    | fuel + 1 =>
      match decodeTLV tagSequence input with
      | .error e => .error e
      | .ok (c, rest) =>
        match decodeAttrList fuel rest with
        | .error e => .error e
        | .ok as => .ok (⟨c⟩ :: as)

/-- Modelled from the spec (§ 4.2, § 4.3): optional IMPLICIT-tagged
attribute set decoder. The next tag is peeked without consuming: a
non-matching or absent tag leaves the stream untouched and yields `none`;
a matching tag commits to the field, whose decoded set must be non-empty
(`SIZE (1..MAX)`), a present-but-empty set being an
`emptyOptionalCollection` error. -/
def decodeOptAttrs (tag : Nat) (input : List Nat) :
    Except ErrorKind (Option (SetOfVec Attribute) × List Nat) :=
  if input.head? = some tag then
    match decodeTLV tag input with
    | .error e => .error e
    | .ok (c, rest) =>
      match decodeAttrList c.length c with
      | .error e => .error e
      | .ok [] => .error .emptyOptionalCollection
      | .ok (a :: as) => .ok (some ⟨a :: as⟩, rest)
  else .ok (none, input)

/-- Modelled from the spec (§ 4.2): field-by-field sequence decoder for
`SignerInfo`, consuming the declared fields strictly in order and requiring
the SEQUENCE content to be fully consumed. -/
def decodeSignerInfo (input : List Nat) : Except ErrorKind (SignerInfo × List Nat) :=
  match decodeTLV tagSequence input with
  | .error e => .error e
  | .ok (c, rest) =>
    match decodeCmsVersion c with
    | .error e => .error e
    | .ok (v, c1) =>
      match decodeSignerIdentifier c1 with
      | .error e => .error e
      | .ok (sid, c2) =>
        match decodeAlgorithmIdentifierRef c2 with
        | .error e => .error e
        | .ok (dalg, c3) =>
          match decodeOptAttrs tagContext0 c3 with
          | .error e => .error e
          | .ok (sa, c4) =>
            match decodeAlgorithmIdentifierRef c4 with
            | .error e => .error e
            | .ok (salg, c5) =>
              match decodeOctetStringRef c5 with
              | .error e => .error e
              | .ok (sig, c6) =>
                match decodeOptAttrs tagContext1 c6 with
                | .error e => .error e
                | .ok (ua, c7) =>
                  if c7 = [] then .ok (⟨v, sid, dalg, sa, salg, sig, ua⟩, rest)
                  else .error .trailingData

/-- Modelled from the spec (§ 6): whole-input decode entry point for a
`SignerInfo` record; unconsumed bytes after the record are `trailingData`. -/
def SignerInfo.fromDer (input : List Nat) : Except ErrorKind SignerInfo :=
  match decodeSignerInfo input with
  | .error e => .error e
  | .ok (si, []) => .ok si
  | .ok (_, _ :: _) => .error .trailingData

/-- Modelled from the spec (§ 4.3): element-by-element decoder for the
content of a SET OF SignerInfo, in stream order, with a fuel bound. -/
def decodeSignerInfoList (fuel : Nat) (input : List Nat) :
    Except ErrorKind (List SignerInfo) :=
  if input = [] then .ok []
  else
    match fuel with
    | 0 => .error .lengthMismatch
    | fuel + 1 =>
      match decodeSignerInfo input with
      | .error e => .error e
      | .ok (si, rest) =>
        match decodeSignerInfoList fuel rest with
        | .error e => .error e
        | .ok sis => .ok (si :: sis)

/-- Modelled from the spec (§ 4.3, § 6): whole-input decode entry point for
`SignerInfos` — elements are accepted in whatever order they appear in the
byte stream; only well-formedness of each element is checked. -/
def SignerInfos.fromDer (input : List Nat) : Except ErrorKind SignerInfos :=
  match decodeTLV tagSet input with
  | .error e => .error e
  | .ok (c, []) =>
    match decodeSignerInfoList c.length c with
    | .error e => .error e
    | .ok sis => .ok ⟨sis⟩
  | .ok (_, _ :: _) => .error .trailingData

/-! ## Well-formedness

A well-formed value satisfies the `SIZE (1..MAX)` invariant on present
attribute sets (§ 3), and stores its set elements in canonical order (the
stored representative of the abstract, unordered set). -/

/-- Well-formedness of an optional attribute set: a present collection is
non-empty and its elements are stored in ascending order of their own
canonical encodings. -/
def attrsWfOpt : Option (SetOfVec Attribute) → Prop
  | none => True
  | some s =>
    s.elems ≠ [] ∧ List.Sorted (fun a b : List Nat => a ≤ b) (s.elems.map Attribute.toDer)

/-- Well-formedness of a `SignerInfo` value. -/
def SignerInfo.wf (si : SignerInfo) : Prop :=
  attrsWfOpt si.signed_attributes ∧ attrsWfOpt si.unsigned_attributes

/-! ## Consumption lemmas: each field decoder consumes exactly the field's
encoding and returns the remainder untouched -/

theorem decodeTLV_encTLV_nil (tag : Nat) (c : List Nat) :
    decodeTLV tag (encTLV tag c) = .ok (c, []) := by
  simpa using decodeTLV_encTLV tag c []

theorem decodeCmsVersion_enc (v : CmsVersion) (rest : List Nat) :
    decodeCmsVersion (v.toDer ++ rest) = .ok (v, rest) := by
  simp [decodeCmsVersion, CmsVersion.toDer, decodeTLV_encTLV]

theorem decodeName_enc (v : Name) (rest : List Nat) :
    decodeName (v.toDer ++ rest) = .ok (v, rest) := by
  simp [decodeName, Name.toDer, decodeTLV_encTLV]

theorem decodeSerialNumber_enc (v : SerialNumber) (rest : List Nat) :
    decodeSerialNumber (v.toDer ++ rest) = .ok (v, rest) := by
  simp [decodeSerialNumber, SerialNumber.toDer, decodeTLV_encTLV]

theorem decodeSerialNumber_enc_nil (v : SerialNumber) :
    decodeSerialNumber v.toDer = .ok (v, []) := by
  simpa using decodeSerialNumber_enc v []

theorem decodeAlgorithmIdentifierRef_enc (v : AlgorithmIdentifierRef) (rest : List Nat) :
    decodeAlgorithmIdentifierRef (v.toDer ++ rest) = .ok (v, rest) := by
  simp [decodeAlgorithmIdentifierRef, AlgorithmIdentifierRef.toDer, decodeTLV_encTLV]

theorem decodeSubjectKeyIdentifier_enc_nil (v : SubjectKeyIdentifier) :
    decodeSubjectKeyIdentifier v.toDer = .ok (v, []) := by
  simp [decodeSubjectKeyIdentifier, SubjectKeyIdentifier.toDer, decodeTLV_encTLV_nil]

theorem decodeOctetStringRef_enc (v : OctetStringRef) (rest : List Nat) :
    decodeOctetStringRef (v.toDer ++ rest) = .ok (v, rest) := by
  simp [decodeOctetStringRef, OctetStringRef.toDer, decodeTLV_encTLV]

theorem decodeOctetStringRef_enc_nil (v : OctetStringRef) :
    decodeOctetStringRef v.toDer = .ok (v, []) := by
  simpa using decodeOctetStringRef_enc v []

theorem decodeIssuerAndSerialNumber_enc (v : IssuerAndSerialNumber) (rest : List Nat) :
    decodeIssuerAndSerialNumber (v.toDer ++ rest) = .ok (v, rest) := by
  simp [decodeIssuerAndSerialNumber, IssuerAndSerialNumber.toDer, decodeTLV_encTLV,
    decodeName_enc, decodeSerialNumber_enc_nil]

theorem decodeSignerIdentifier_enc_issuer (v : IssuerAndSerialNumber) (rest : List Nat) :
    decodeSignerIdentifier ((SignerIdentifier.issuerAndSerialNumber v).toDer ++ rest)
      = .ok (.issuerAndSerialNumber v, rest) := by
  have hh : (v.toDer ++ rest).head? = some tagSequence := by
    rw [IssuerAndSerialNumber.toDer]; exact encTLV_head _ _ _
  simp [decodeSignerIdentifier, SignerIdentifier.toDer, hh, decodeIssuerAndSerialNumber_enc]

theorem decodeSignerIdentifier_enc_ski (v : SubjectKeyIdentifier) (rest : List Nat) :
    decodeSignerIdentifier ((SignerIdentifier.subjectKeyIdentifier v).toDer ++ rest)
      = .ok (.subjectKeyIdentifier v, rest) := by
  have hne : tagContext0 ≠ tagSequence := by decide
  simp only [SignerIdentifier.toDer, decodeSignerIdentifier]
  rw [encTLV_head]
  simp [hne, decodeTLV_encTLV, decodeSubjectKeyIdentifier_enc_nil]

theorem decodeAttrList_encList (l : List Attribute) :
    ∀ fuel : Nat, ((l.map Attribute.toDer).flatten).length ≤ fuel →
      decodeAttrList fuel ((l.map Attribute.toDer).flatten) = .ok l := by
  induction l with
  | nil => intro fuel _; cases fuel <;> simp [decodeAttrList]
  | cons a t ih =>
    intro fuel hfuel
    have hne : Attribute.toDer a ++ (t.map Attribute.toDer).flatten ≠ [] := by
      simp [Attribute.toDer, encTLV]
    have hlen2 : 2 ≤ (Attribute.toDer a).length := encTLV_length_ge_two _ _
    simp only [List.map_cons, List.flatten_cons] at hfuel ⊢
    rw [List.length_append] at hfuel
    obtain ⟨f, rfl⟩ : ∃ f, fuel = f + 1 := ⟨fuel - 1, by omega⟩
    rw [decodeAttrList, if_neg hne]
    rw [show Attribute.toDer a = encTLV tagSequence a.content from rfl, decodeTLV_encTLV]
    simp [ih f (by omega)]

theorem decodeOptAttrs_absent (tag : Nat) (input : List Nat)
    (h : input.head? ≠ some tag) :
    decodeOptAttrs tag input = .ok (none, input) := by
  simp [decodeOptAttrs, h]

theorem decodeOptAttrs_present (tag : Nat) (s : SetOfVec Attribute) (rest : List Nat)
    (h1 : s.elems ≠ [])
    (h2 : List.Sorted (fun a b : List Nat => a ≤ b) (s.elems.map Attribute.toDer)) :
    decodeOptAttrs tag (encTLV tag (setContent (s.elems.map Attribute.toDer)) ++ rest)
      = .ok (some s, rest) := by
  obtain ⟨elems⟩ := s
  simp only at h1 h2 ⊢
  obtain ⟨a, as, rfl⟩ := List.exists_cons_of_ne_nil h1
  have hset : setContent (((a :: as).map Attribute.toDer))
      = (((a :: as).map Attribute.toDer)).flatten := by
    simp only [setContent, canonicalOrder, List.Sorted.insertionSort_eq h2]
  have hdec := decodeAttrList_encList (a :: as)
    ((((a :: as).map Attribute.toDer)).flatten).length (le_refl _)
  rw [decodeOptAttrs, if_pos (encTLV_head tag _ rest), decodeTLV_encTLV, hset]
  dsimp only
  rw [hdec]

theorem decodeOptAttrs_present_nil (tag : Nat) (s : SetOfVec Attribute)
    (h1 : s.elems ≠ [])
    (h2 : List.Sorted (fun a b : List Nat => a ≤ b) (s.elems.map Attribute.toDer)) :
    decodeOptAttrs tag (encTLV tag (setContent (s.elems.map Attribute.toDer)))
      = .ok (some s, []) := by
  simpa using decodeOptAttrs_present tag s [] h1 h2

theorem decodeOptAttrs_encList (tag : Nat) (as : List Attribute) (rest : List Nat)
    (hne : as ≠ []) :
    decodeOptAttrs tag (encTLV tag ((as.map Attribute.toDer).flatten) ++ rest)
      = .ok (some ⟨as⟩, rest) := by
  obtain ⟨a, tl, rfl⟩ := List.exists_cons_of_ne_nil hne
  have hdec := decodeAttrList_encList (a :: tl)
    ((((a :: tl).map Attribute.toDer)).flatten).length (le_refl _)
  rw [decodeOptAttrs, if_pos (encTLV_head tag _ rest), decodeTLV_encTLV]
  dsimp only
  rw [hdec]

theorem decodeSignerIdentifier_enc (sid : SignerIdentifier) (rest : List Nat) :
    decodeSignerIdentifier (sid.toDer ++ rest) = .ok (sid, rest) := by
  cases sid with
  | issuerAndSerialNumber v => exact decodeSignerIdentifier_enc_issuer v rest
  | subjectKeyIdentifier v => exact decodeSignerIdentifier_enc_ski v rest

theorem algToDer_head (v : AlgorithmIdentifierRef) (rest : List Nat) :
    (v.toDer ++ rest).head? = some tagSequence := by
  rw [AlgorithmIdentifierRef.toDer]; exact encTLV_head _ _ _

theorem algToDer_head_nil (v : AlgorithmIdentifierRef) :
    v.toDer.head? = some tagSequence := by
  simp [AlgorithmIdentifierRef.toDer, encTLV]

theorem decodeSignerInfo_enc (si : SignerInfo) (rest : List Nat) (h : si.wf) :
    decodeSignerInfo (si.toDer ++ rest) = .ok (si, rest) := by
  obtain ⟨v, sid, dalg, sa, salg, sig, ua⟩ := si
  obtain ⟨hsa, hua⟩ := h
  have hne0 : tagSequence ≠ tagContext0 := by decide
  have hne1 : tagSequence ≠ tagContext1 := by decide
  cases sa with
  | none =>
    cases ua with
    | none =>
      simp [SignerInfo.toDer, optAttrsToDer, List.append_assoc, decodeSignerInfo,
        decodeTLV_encTLV, decodeCmsVersion_enc, decodeSignerIdentifier_enc,
        decodeAlgorithmIdentifierRef_enc, decodeOctetStringRef_enc,
        decodeOctetStringRef_enc_nil, algToDer_head, algToDer_head_nil,
        hne0, hne1, decodeOptAttrs_absent]
    | some u =>
      obtain ⟨hu1, hu2⟩ := hua
      simp [SignerInfo.toDer, optAttrsToDer, List.append_assoc, decodeSignerInfo,
        decodeTLV_encTLV, decodeCmsVersion_enc, decodeSignerIdentifier_enc,
        decodeAlgorithmIdentifierRef_enc, decodeOctetStringRef_enc,
        decodeOctetStringRef_enc_nil, algToDer_head, algToDer_head_nil,
        hne0, hne1, decodeOptAttrs_absent, decodeOptAttrs_present_nil _ _ hu1 hu2]
  | some s =>
    obtain ⟨hs1, hs2⟩ := hsa
    cases ua with
    | none =>
      simp [SignerInfo.toDer, optAttrsToDer, List.append_assoc, decodeSignerInfo,
        decodeTLV_encTLV, decodeCmsVersion_enc, decodeSignerIdentifier_enc,
        decodeAlgorithmIdentifierRef_enc, decodeOctetStringRef_enc,
        decodeOctetStringRef_enc_nil, algToDer_head, algToDer_head_nil,
        hne0, hne1, decodeOptAttrs_absent, decodeOptAttrs_present _ _ _ hs1 hs2]
    | some u =>
      obtain ⟨hu1, hu2⟩ := hua
      simp [SignerInfo.toDer, optAttrsToDer, List.append_assoc, decodeSignerInfo,
        decodeTLV_encTLV, decodeCmsVersion_enc, decodeSignerIdentifier_enc,
        decodeAlgorithmIdentifierRef_enc, decodeOctetStringRef_enc, algToDer_head,
        hne0, hne1, decodeOptAttrs_present _ _ _ hs1 hs2,
        decodeOptAttrs_present_nil _ _ hu1 hu2]

theorem fromDer_toDer (si : SignerInfo) (h : si.wf) :
    SignerInfo.fromDer si.toDer = .ok si := by
  have hd : decodeSignerInfo (si.toDer ++ []) = .ok (si, []) := decodeSignerInfo_enc si [] h
  rw [List.append_nil] at hd
  simp [SignerInfo.fromDer, hd]

theorem decodeSignerInfoList_encList (l : List SignerInfo) (hwf : ∀ si ∈ l, si.wf) :
    ∀ fuel : Nat, ((l.map SignerInfo.toDer).flatten).length ≤ fuel →
      decodeSignerInfoList fuel ((l.map SignerInfo.toDer).flatten) = .ok l := by
  induction l with
  | nil => intro fuel _; cases fuel <;> simp [decodeSignerInfoList]
  | cons a t ih =>
    intro fuel hfuel
    have hne : SignerInfo.toDer a ++ (t.map SignerInfo.toDer).flatten ≠ [] := by
      simp [SignerInfo.toDer, encTLV]
    have hlen2 : 2 ≤ (SignerInfo.toDer a).length := by
      rw [SignerInfo.toDer]; exact encTLV_length_ge_two _ _
    simp only [List.map_cons, List.flatten_cons] at hfuel ⊢
    rw [List.length_append] at hfuel
    obtain ⟨f, rfl⟩ : ∃ f, fuel = f + 1 := ⟨fuel - 1, by omega⟩
    rw [decodeSignerInfoList, if_neg hne]
    rw [decodeSignerInfo_enc a _ (hwf a (by simp))]
    simp [ih (fun si hsi => hwf si (by simp [hsi])) f (by omega)]

theorem signerInfos_fromDer_encList (l : List SignerInfo) (hwf : ∀ si ∈ l, si.wf) :
    SignerInfos.fromDer (encTLV tagSet ((l.map SignerInfo.toDer).flatten)) = .ok ⟨l⟩ := by
  have h := decodeSignerInfoList_encList l hwf
    (((l.map SignerInfo.toDer)).flatten).length (le_refl _)
  simp only [SignerInfos.fromDer]
  rw [decodeTLV_encTLV_nil]
  dsimp only
  rw [h]

/-! ### Canonical-ordering facts for the set container's encoder -/

theorem canonicalOrder_perm_eq {l₁ l₂ : List (List Nat)} (h : l₁.Perm l₂) :
    canonicalOrder l₁ = canonicalOrder l₂ :=
  List.eq_of_perm_of_sorted
    ((List.perm_insertionSort _ l₁).trans (h.trans (List.perm_insertionSort _ l₂).symm))
    (List.sorted_insertionSort _ l₁) (List.sorted_insertionSort _ l₂)

theorem canonicalOrder_sorted (l : List (List Nat)) :
    List.Sorted (fun a b : List Nat => a ≤ b) (canonicalOrder l) :=
  List.sorted_insertionSort _ l

theorem canonicalOrder_sorted_lt (l : List (List Nat)) (hnd : l.Nodup) :
    List.Sorted (fun a b : List Nat => a < b) (canonicalOrder l) := by
  have hs : List.Pairwise (fun a b : List Nat => a ≤ b) (canonicalOrder l) :=
    canonicalOrder_sorted l
  have hnd2 : (canonicalOrder l).Nodup := ((List.perm_insertionSort _ l).nodup_iff).mpr hnd
  exact (hs.and hnd2).imp (fun h => lt_of_le_of_ne h.1 h.2)

theorem signerInfos_toDer_perm {l₁ l₂ : List SignerInfo} (h : l₁.Perm l₂) :
    SignerInfos.toDer ⟨l₁⟩ = SignerInfos.toDer ⟨l₂⟩ := by
  simp only [SignerInfos.toDer, setContent]
  rw [canonicalOrder_perm_eq (h.map SignerInfo.toDer)]

theorem canonicalOrder_pair_lt {a b : List Nat} (h : a < b) :
    canonicalOrder [a, b] = [a, b] ∧ canonicalOrder [b, a] = [a, b] := by
  have h1 : a ≤ b := le_of_lt h
  have h2 : ¬ b ≤ a := not_le.mpr h
  constructor <;> simp [canonicalOrder, List.insertionSort, List.orderedInsert, h1, h2]

/-! ## Decidability of well-formedness (for concrete evaluation) -/

instance (o : Option (SetOfVec Attribute)) : Decidable (attrsWfOpt o) :=
  match o with
  | none => .isTrue trivial
  | some s =>
    inferInstanceAs (Decidable (s.elems ≠ []
      ∧ List.Sorted (fun a b : List Nat => a ≤ b) (s.elems.map Attribute.toDer)))

instance (si : SignerInfo) : Decidable si.wf :=
  inferInstanceAs (Decidable (_ ∧ _))

/-! ## Error-path lemmas -/

theorem encTLV_head_nil (tag : Nat) (c : List Nat) :
    (encTLV tag c).head? = some tag := by
  simp [encTLV]

theorem decodeOptAttrs_nil (tag : Nat) :
    decodeOptAttrs tag [] = .ok (none, []) :=
  decodeOptAttrs_absent tag [] (by simp)

theorem decodeOptAttrs_empty (tag : Nat) :
    decodeOptAttrs tag (encTLV tag []) = .error .emptyOptionalCollection := by
  rw [decodeOptAttrs, if_pos (encTLV_head_nil tag []), decodeTLV_encTLV_nil]
  rfl

theorem decodeAlgorithmIdentifierRef_enc_nil (v : AlgorithmIdentifierRef) :
    decodeAlgorithmIdentifierRef v.toDer = .ok (v, []) := by
  simpa using decodeAlgorithmIdentifierRef_enc v []

theorem decodeAlgorithmIdentifierRef_nilInput :
    decodeAlgorithmIdentifierRef [] = .error .missingField := rfl

theorem decodeOctetStringRef_nilInput :
    decodeOctetStringRef [] = .error .missingField := rfl

/-! ## Sample values for concrete evaluation -/

/-- A sample signer record using the issuer-and-serial-number identifier
and no optional attribute sets. -/
def sampleA : SignerInfo :=
  { version := ⟨[1]⟩
    sid := .issuerAndSerialNumber ⟨⟨[2]⟩, ⟨[3]⟩⟩
    digest_algorithm := ⟨[4]⟩
    signed_attributes := none
    signature_algorithm := ⟨[5]⟩
    signature := ⟨[6]⟩
    unsigned_attributes := none }

/-- A sample signer record using the subject-key-identifier variant and
both optional attribute sets. -/
def sampleB : SignerInfo :=
  { version := ⟨[9]⟩
    sid := .subjectKeyIdentifier ⟨[7]⟩
    digest_algorithm := ⟨[4]⟩
    signed_attributes := some ⟨[⟨[1]⟩]⟩
    signature_algorithm := ⟨[5]⟩
    signature := ⟨[6]⟩
    unsigned_attributes := some ⟨[⟨[2]⟩]⟩ }

/-! ## Claim theorems -/

/-- C1: for every well-formed `SignerInfo` value — with either
`SignerIdentifier` variant and any of the four presence combinations of
`signed_attributes` and `unsigned_attributes` — decoding the DER encoding
of the value yields a structurally equal value. -/
theorem C1_signerInfo_decode_encode_roundTrip (si : SignerInfo) (h : si.wf) :
    SignerInfo.fromDer si.toDer = .ok si :=
  fromDer_toDer si h

/-- Witness for C1, at a concrete record exercising the
subject-key-identifier variant with both optional attribute sets present. -/
theorem C1_witness :
    sampleB.wf ∧ SignerInfo.fromDer sampleB.toDer = .ok sampleB :=
  ⟨by decide, C1_signerInfo_decode_encode_roundTrip sampleB (by decide)⟩

/-- C2: for a `SignerInfos` collection built from two records A, B with
`A.toDer < B.toDer` lexicographically, serialization places A's bytes
before B's regardless of insertion order; in general serialization is
insertion-order invariant (permutation invariant) and emits element
encodings in ascending — strictly ascending when distinct — order. -/
theorem C2_signerInfos_canonical_der_ordering (A B : SignerInfo)
    (hAB : A.toDer < B.toDer) :
    (SignerInfos.toDer ⟨[A, B]⟩ = SignerInfos.toDer ⟨[B, A]⟩
        ∧ SignerInfos.toDer ⟨[B, A]⟩ = encTLV tagSet (A.toDer ++ B.toDer))
      ∧ (∀ l₁ l₂ : List SignerInfo, l₁.Perm l₂ →
          SignerInfos.toDer ⟨l₁⟩ = SignerInfos.toDer ⟨l₂⟩)
      ∧ (∀ l : List SignerInfo, (l.map SignerInfo.toDer).Nodup →
          List.Sorted (fun x y : List Nat => x < y)
            (canonicalOrder (l.map SignerInfo.toDer))) := by
  obtain ⟨hc1, hc2⟩ := canonicalOrder_pair_lt hAB
  refine ⟨⟨?_, ?_⟩, fun l₁ l₂ h => signerInfos_toDer_perm h,
    fun l h => canonicalOrder_sorted_lt _ h⟩
  · simp [SignerInfos.toDer, setContent, hc1, hc2]
  · simp [SignerInfos.toDer, setContent, hc2]

/-- Witness for C2, at two concrete records whose encodings are strictly
ordered. -/
theorem C2_witness :
    SignerInfos.toDer ⟨[sampleA, sampleB]⟩ = SignerInfos.toDer ⟨[sampleB, sampleA]⟩
      ∧ SignerInfos.toDer ⟨[sampleB, sampleA]⟩
        = encTLV tagSet (sampleA.toDer ++ sampleB.toDer) :=
  (C2_signerInfos_canonical_der_ordering sampleA sampleB (by decide)).1

/-- C3: a `SignerInfo` byte sequence in which `signedAttrs` (context tag 0)
or `unsignedAttrs` (context tag 1) is present but encodes zero elements
fails to decode with `emptyOptionalCollection`. -/
theorem C3_empty_present_attribute_set_rejected (v : CmsVersion)
    (sid : SignerIdentifier) (dalg salg : AlgorithmIdentifierRef)
    (sig : OctetStringRef) :
    SignerInfo.fromDer
        (encTLV tagSequence (v.toDer ++ sid.toDer ++ dalg.toDer ++ encTLV tagContext0 []))
        = .error .emptyOptionalCollection
      ∧ SignerInfo.fromDer
        (encTLV tagSequence (v.toDer ++ sid.toDer ++ dalg.toDer ++ salg.toDer
          ++ sig.toDer ++ encTLV tagContext1 []))
        = .error .emptyOptionalCollection := by
  have hne0 : tagSequence ≠ tagContext0 := by decide
  constructor
  · simp [SignerInfo.fromDer, decodeSignerInfo, List.append_assoc, decodeTLV_encTLV_nil,
      decodeCmsVersion_enc, decodeSignerIdentifier_enc, decodeAlgorithmIdentifierRef_enc,
      decodeOptAttrs_empty]
  · simp [SignerInfo.fromDer, decodeSignerInfo, List.append_assoc, decodeTLV_encTLV_nil,
      decodeCmsVersion_enc, decodeSignerIdentifier_enc, decodeAlgorithmIdentifierRef_enc,
      algToDer_head, algToDer_head_nil, hne0, decodeOptAttrs_absent,
      decodeOctetStringRef_enc, decodeOptAttrs_empty]

/-- C4: decoding a `SignerIdentifier` dispatches on the outer tag — an
untagged SEQUENCE yields the issuer-and-serial-number variant, context
tag 0 yields the subject-key-identifier variant, and any other outer tag
fails with `tagMismatch`. -/
theorem C4_signerIdentifier_choice_dispatch (ias : IssuerAndSerialNumber)
    (ski : SubjectKeyIdentifier) (t : Nat) (rest : List Nat)
    (h1 : t ≠ tagSequence) (h2 : t ≠ tagContext0) :
    decodeSignerIdentifier ((SignerIdentifier.issuerAndSerialNumber ias).toDer ++ rest)
        = .ok (.issuerAndSerialNumber ias, rest)
      ∧ decodeSignerIdentifier ((SignerIdentifier.subjectKeyIdentifier ski).toDer ++ rest)
        = .ok (.subjectKeyIdentifier ski, rest)
      ∧ decodeSignerIdentifier (t :: rest) = .error .tagMismatch := by
  refine ⟨decodeSignerIdentifier_enc_issuer ias rest,
    decodeSignerIdentifier_enc_ski ski rest, ?_⟩
  simp [decodeSignerIdentifier, h1, h2]

/-- Witness for C4, at concrete identifiers and the non-matching outer
tag 5. -/
theorem C4_witness :
    decodeSignerIdentifier ((SignerIdentifier.issuerAndSerialNumber ⟨⟨[2]⟩, ⟨[3]⟩⟩).toDer ++ [])
        = .ok (.issuerAndSerialNumber ⟨⟨[2]⟩, ⟨[3]⟩⟩, [])
      ∧ decodeSignerIdentifier ((SignerIdentifier.subjectKeyIdentifier ⟨[7]⟩).toDer ++ [])
        = .ok (.subjectKeyIdentifier ⟨[7]⟩, [])
      ∧ decodeSignerIdentifier (5 :: []) = .error .tagMismatch :=
  C4_signerIdentifier_choice_dispatch ⟨⟨[2]⟩, ⟨[3]⟩⟩ ⟨[7]⟩ 5 [] (by decide) (by decide)

/-- C5: the presence of each optional attribute set is decided by peeking
the next tag — a non-matching or absent tag leaves the field `none`
without consuming input and without failing, and whenever the decoder
succeeds after peeking the matching context tag the field is present. -/
theorem C5_optional_field_presence_by_peeked_tag :
    (∀ input : List Nat, input.head? ≠ some tagContext0 →
        decodeOptAttrs tagContext0 input = .ok (none, input))
      ∧ (∀ input : List Nat, input.head? ≠ some tagContext1 →
        decodeOptAttrs tagContext1 input = .ok (none, input))
      ∧ (∀ (tag : Nat) (input : List Nat) (r : Option (SetOfVec Attribute) × List Nat),
          input.head? = some tag → decodeOptAttrs tag input = .ok r → r.1 ≠ none) := by
  refine ⟨fun input h => decodeOptAttrs_absent _ input h,
    fun input h => decodeOptAttrs_absent _ input h, ?_⟩
  intro tag input r hhead hok
  rw [decodeOptAttrs, if_pos hhead] at hok
  cases hdt : decodeTLV tag input with
  | error e => rw [hdt] at hok; exact absurd hok (by simp)
  | ok p =>
    obtain ⟨c, rest⟩ := p
    rw [hdt] at hok
    dsimp only at hok
    cases hda : decodeAttrList c.length c with
    | error e => rw [hda] at hok; exact absurd hok (by simp)
    | ok as =>
      rw [hda] at hok
      cases as with
      | nil => exact absurd hok (by simp)
      | cons a tl =>
        dsimp only at hok
        injection hok with h
        subst h
        simp

/-- Witness for C5: a stream starting with a SEQUENCE tag leaves the
optional field absent and the input unconsumed. -/
theorem C5_witness :
    decodeOptAttrs tagContext0 [tagSequence, 0] = .ok (none, [tagSequence, 0]) :=
  C5_optional_field_presence_by_peeked_tag.1 [tagSequence, 0] (by decide)

/-- C6: a `SignerInfo` sequence whose content is exhausted before the
mandatory signature-algorithm field, or before the mandatory signature
field, fails to decode with `missingField`. -/
theorem C6_missingField_on_truncated_sequence (v : CmsVersion)
    (sid : SignerIdentifier) (dalg salg : AlgorithmIdentifierRef) :
    SignerInfo.fromDer (encTLV tagSequence (v.toDer ++ sid.toDer ++ dalg.toDer))
        = .error .missingField
      ∧ SignerInfo.fromDer
          (encTLV tagSequence (v.toDer ++ sid.toDer ++ dalg.toDer ++ salg.toDer))
        = .error .missingField := by
  have hne0 : tagSequence ≠ tagContext0 := by decide
  constructor
  · simp [SignerInfo.fromDer, decodeSignerInfo, List.append_assoc, decodeTLV_encTLV_nil,
      decodeCmsVersion_enc, decodeSignerIdentifier_enc, decodeAlgorithmIdentifierRef_enc_nil,
      decodeOptAttrs_nil, decodeAlgorithmIdentifierRef_nilInput]
  · simp [SignerInfo.fromDer, decodeSignerInfo, List.append_assoc, decodeTLV_encTLV_nil,
      decodeCmsVersion_enc, decodeSignerIdentifier_enc, decodeAlgorithmIdentifierRef_enc,
      decodeAlgorithmIdentifierRef_enc_nil, algToDer_head, algToDer_head_nil, hne0,
      decodeOptAttrs_absent, decodeOctetStringRef_nilInput]

/-- C7: the subject-key-identifier variant of `SignerIdentifier` encodes by
wrapping the inner value's complete encoding, unchanged, in the explicit
constructed context-specific tag 0, while the issuer-and-serial-number
variant encodes as an untagged nested SEQUENCE of name then serial
number. -/
theorem C7_signerIdentifier_encoding_shapes (ski : SubjectKeyIdentifier)
    (ias : IssuerAndSerialNumber) :
    (SignerIdentifier.subjectKeyIdentifier ski).toDer
        = tagContext0 :: encLen ski.toDer.length ++ ski.toDer
      ∧ (SignerIdentifier.issuerAndSerialNumber ias).toDer
        = tagSequence :: encLen (ias.name.toDer ++ ias.serial_number.toDer).length
            ++ (ias.name.toDer ++ ias.serial_number.toDer) :=
  ⟨rfl, rfl⟩

/-- C8: the element-level ordering hook of `SignerInfo` — the `ValueOrd`
implementation in `signer_info.rs` — returns `Ok(Ordering::Equal)` for
every pair of values: it never errors and never distinguishes two
values. -/
theorem C8_value_cmp_always_equal (a b : SignerInfo) :
    SignerInfo.value_cmp a b = .ok Ordering.eq := rfl

/-- C9: decoding a canonical set collection — a SET OF `SignerInfo` or an
implicitly tagged attribute set — accepts its elements in whatever order
they appear in the byte stream: no ordering hypothesis is needed, only
well-formedness of each element (and non-emptiness for the optional
attribute-set field), and elements are returned in stream order. -/
theorem C9_decode_accepts_any_element_order (l : List SignerInfo)
    (hwf : ∀ si ∈ l, si.wf) (as : List Attribute) (tag : Nat) (rest : List Nat)
    (hne : as ≠ []) :
    SignerInfos.fromDer (encTLV tagSet ((l.map SignerInfo.toDer).flatten)) = .ok ⟨l⟩
      ∧ decodeAttrList ((as.map Attribute.toDer).flatten).length
          ((as.map Attribute.toDer).flatten) = .ok as
      ∧ decodeOptAttrs tag (encTLV tag ((as.map Attribute.toDer).flatten) ++ rest)
          = .ok (some ⟨as⟩, rest) :=
  ⟨signerInfos_fromDer_encList l hwf,
    decodeAttrList_encList as ((as.map Attribute.toDer).flatten).length (le_refl _),
    decodeOptAttrs_encList tag as rest hne⟩

/-- Witness for C9: a SET OF stream whose two elements appear in
descending encoding order, and an attribute set whose two elements also
appear in descending encoding order, both decode to the stream order. -/
theorem C9_witness :
    SignerInfos.fromDer (encTLV tagSet (([sampleB, sampleA].map SignerInfo.toDer).flatten))
        = .ok ⟨[sampleB, sampleA]⟩
      ∧ decodeAttrList (([⟨[2]⟩, ⟨[1]⟩].map Attribute.toDer).flatten).length
          (([⟨[2]⟩, ⟨[1]⟩].map Attribute.toDer).flatten) = .ok [⟨[2]⟩, ⟨[1]⟩]
      ∧ decodeOptAttrs tagContext0
          (encTLV tagContext0 (([⟨[2]⟩, ⟨[1]⟩].map Attribute.toDer).flatten) ++ [])
        = .ok (some ⟨[⟨[2]⟩, ⟨[1]⟩]⟩, []) :=
  C9_decode_accepts_any_element_order [sampleB, sampleA] (by decide)
    [⟨[2]⟩, ⟨[1]⟩] tagContext0 [] (by decide)

/-- C10 counterexample: two insertion orders of the same two records with
distinct canonical encodings serialize to identical bytes, refuting the
claim that a `SignerInfos` collection's serialization preserves insertion
order whenever the element encodings differ. -/
theorem C10_counterexample :
    sampleA.toDer ≠ sampleB.toDer
      ∧ SignerInfos.toDer ⟨[sampleA, sampleB]⟩ = SignerInfos.toDer ⟨[sampleB, sampleA]⟩ := by
  decide

/-- C10 (amended): a `SignerInfos` collection preserves insertion order in
its stored element sequence (iteration), but serialization is independent
of insertion order, because the encoder sorts by the elements' canonical
encodings; `value_cmp` plays no role in the emitted order. -/
theorem C10_amended_iteration_order_vs_serialization (l₁ l₂ : List SignerInfo)
    (h : l₁.Perm l₂) :
    (SetOfVec.mk l₁ : SignerInfos).elems = l₁
      ∧ SignerInfos.toDer ⟨l₁⟩ = SignerInfos.toDer ⟨l₂⟩ :=
  ⟨rfl, signerInfos_toDer_perm h⟩

/-- Witness for the amended C10, at the two concrete insertion orders. -/
theorem C10_witness :
    (SetOfVec.mk [sampleA, sampleB] : SignerInfos).elems = [sampleA, sampleB]
      ∧ SignerInfos.toDer ⟨[sampleA, sampleB]⟩ = SignerInfos.toDer ⟨[sampleB, sampleA]⟩ :=
  C10_amended_iteration_order_vs_serialization [sampleA, sampleB] [sampleB, sampleA]
    (by decide)
